import Mathlib

/-!
Verification development for the multi-round tool-augmented chat orchestrator
of the `chat-bot` repository.

The embedding below is a shallow translation of the orchestration service
(`createChatStream` and its helpers `executeToolConcurrently`,
`generateFollowupMessages`, `createChatParams`, `saveMessage`,
`filterMessagesForLLM`, `convertToolsToOpenAIFormat`) together with the
search tool's followup policy (`ExaSearchTool.followup`, in particular its
`filterResult` function).

External collaborators are parameters of the embedding:
* the OpenAI streaming client becomes an oracle `Nat → List (Option Choice)`
  giving the chunk stream returned for the n-th request of the turn;
* the Prisma message store becomes an explicit `Db` state threaded through,
  with a failure oracle `plan : Nat → Bool` deciding (by operation ordinal)
  whether a persistence call throws;
* the module-level tool registry (`tools` / `toolMap`) becomes a
  `List Tool` parameter;
* the `MAX_TOOL_CALL_ROUNDS` environment configuration becomes a `maxRounds`
  parameter (the source default is 3).

JavaScript exceptions are modelled with `Except`; JavaScript `undefined`
for absent fields is modelled with `Option`.
-/

namespace ChatBot

/-! ## JSON values (the result of `JSON.parse`)

Number literals keep their source lexeme; no claim below depends on numeric
normalisation. Object fields keep source order; `JSON.parse` keeps the last
of duplicate keys, which is what `jsGet` below implements. -/

inductive Json where
  | null : Json
  | bool (b : Bool) : Json
  | num (lexeme : String) : Json
  | str (s : String) : Json
  | arr (elems : List Json) : Json
  | obj (fields : List (String × Json)) : Json

/-! ## A small JSON parser (model of `JSON.parse`)

Recursion is fuelled; `jsonParse` supplies fuel proportional to the input
length, which is enough for every input whose parse tree the source code can
actually build. Failure carries no payload: the orchestrator only formats a
runtime-dependent exception text from it. -/

def isJsonWs (c : Char) : Bool :=
  c = ' ' ∨ c = '\n' ∨ c = '\t' ∨ c = '\r'

def skipWs : List Char → List Char
  | [] => []
  | c :: cs => if isJsonWs c then skipWs cs else c :: cs

def hexVal (c : Char) : Option Nat :=
  if '0' ≤ c ∧ c ≤ '9' then some (c.toNat - '0'.toNat)
  else if 'a' ≤ c ∧ c ≤ 'f' then some (c.toNat - 'a'.toNat + 10)
  else if 'A' ≤ c ∧ c ≤ 'F' then some (c.toNat - 'A'.toNat + 10)
  else none

/-- Body of a JSON string literal, after the opening quote. -/
def parseStringBody (fuel : Nat) (cs : List Char) (acc : List Char) :
    Except Unit (String × List Char) :=
  match fuel with
  | 0 => .error ()
  | fuel + 1 =>
    match cs with
    | [] => .error ()
    | '"' :: rest => .ok (String.mk acc.reverse, rest)
    | '\\' :: esc :: rest =>
      match esc with
      | '"' => parseStringBody fuel rest ('"' :: acc)
      | '\\' => parseStringBody fuel rest ('\\' :: acc)
      | '/' => parseStringBody fuel rest ('/' :: acc)
      | 'b' => parseStringBody fuel rest ('\x08' :: acc)
      | 'f' => parseStringBody fuel rest ('\x0c' :: acc)
      | 'n' => parseStringBody fuel rest ('\n' :: acc)
      | 'r' => parseStringBody fuel rest ('\r' :: acc)
      | 't' => parseStringBody fuel rest ('\t' :: acc)
      | 'u' =>
        match rest with
        | h1 :: h2 :: h3 :: h4 :: rest' =>
          match hexVal h1, hexVal h2, hexVal h3, hexVal h4 with
          | some a, some b, some c, some d =>
            parseStringBody fuel rest' (Char.ofNat (((a * 16 + b) * 16 + c) * 16 + d) :: acc)
          | _, _, _, _ => .error ()
        | _ => .error ()
      | _ => .error ()
    | c :: rest => parseStringBody fuel rest (c :: acc)

def isDigit (c : Char) : Bool := '0' ≤ c ∧ c ≤ '9'

def takeDigits : List Char → List Char × List Char
  | [] => ([], [])
  | c :: cs =>
    if isDigit c then
      let (ds, rest) := takeDigits cs
      (c :: ds, rest)
    else ([], c :: cs)

/-- JSON number grammar: `-? int frac? exp?`, kept as its lexeme. -/
def parseNumber (cs : List Char) : Except Unit (String × List Char) :=
  let (sign, cs1) := match cs with
    | '-' :: rest => (['-'], rest)
    | _ => (([] : List Char), cs)
  match cs1 with
  | [] => .error ()
  | c :: _ =>
    if ¬ isDigit c then .error ()
    else
      let (intPart, cs2) := takeDigits cs1
      let (fracPart, cs3) :=
        match cs2 with
        | '.' :: d :: rest =>
          if isDigit d then
            let (ds, rest') := takeDigits (d :: rest)
            ('.' :: ds, rest')
          else (([] : List Char), cs2)
        | _ => ([], cs2)
      let (expPart, cs4) :=
        match cs3 with
        | e :: rest =>
          if e = 'e' ∨ e = 'E' then
            match rest with
            | s :: d :: rest' =>
              if (s = '+' ∨ s = '-') ∧ isDigit d then
                let (ds, rest'') := takeDigits (d :: rest')
                (e :: s :: ds, rest'')
              else if isDigit s then
                let (ds, rest'') := takeDigits (s :: d :: rest')
                (e :: ds, rest'')
              else (([] : List Char), cs3)
            | [d] =>
              if isDigit d then ([e, d], [])
              else (([] : List Char), cs3)
            | [] => (([] : List Char), cs3)
          else (([] : List Char), cs3)
        | [] => ([], cs3)
      .ok (String.mk (sign ++ intPart ++ fracPart ++ expPart), cs4)

def startsWith : List Char → List Char → Option (List Char)
  | [], cs => some cs
  | _, [] => none
  | p :: ps, c :: cs => if p = c then startsWith ps cs else none

mutual

def parseValue (fuel : Nat) (cs : List Char) : Except Unit (Json × List Char) :=
  match fuel with
  | 0 => .error ()
  | fuel + 1 =>
    let cs := skipWs cs
    match cs with
    | [] => .error ()
    | c :: rest =>
      if c = '"' then
        match parseStringBody (rest.length + 1) rest [] with
        | .ok (s, rest') => .ok (.str s, rest')
        | .error _ => .error ()
      else if c = '\x7b' then
        parseMembers fuel (skipWs rest) [] true
      else if c = '[' then
        parseElements fuel (skipWs rest) [] true
      else
        match startsWith ['t', 'r', 'u', 'e'] cs with
        | some rest' => .ok (.bool true, rest')
        | none =>
          match startsWith ['f', 'a', 'l', 's', 'e'] cs with
          | some rest' => .ok (.bool false, rest')
          | none =>
            match startsWith ['n', 'u', 'l', 'l'] cs with
            | some rest' => .ok (.null, rest')
            | none =>
              match parseNumber cs with
              | .ok (lex, rest') => .ok (.num lex, rest')
              | .error _ => .error ()

/-- Members of an object, after the opening brace (`first` marks that no
member has been read yet, so a closing brace is accepted). -/
def parseMembers (fuel : Nat) (cs : List Char) (acc : List (String × Json))
    (first : Bool) : Except Unit (Json × List Char) :=
  match fuel with
  | 0 => .error ()
  | fuel + 1 =>
    match cs with
    | '\x7d' :: rest =>
      if first then .ok (.obj acc.reverse, rest) else .error ()
    | '"' :: rest =>
      match parseStringBody (rest.length + 1) rest [] with
      | .error _ => .error ()
      | .ok (key, rest1) =>
        match skipWs rest1 with
        | ':' :: rest2 =>
          match parseValue fuel rest2 with
          | .error _ => .error ()
          | .ok (v, rest3) =>
            match skipWs rest3 with
            | ',' :: rest4 => parseMembers fuel (skipWs rest4) ((key, v) :: acc) false
            | '\x7d' :: rest4 => .ok (.obj ((key, v) :: acc).reverse, rest4)
            | _ => .error ()
        | _ => .error ()
    | _ => .error ()

/-- Elements of an array, after the opening bracket. -/
def parseElements (fuel : Nat) (cs : List Char) (acc : List Json)
    (first : Bool) : Except Unit (Json × List Char) :=
  match fuel with
  | 0 => .error ()
  | fuel + 1 =>
    match cs with
    | ']' :: rest =>
      if first then .ok (.arr acc.reverse, rest) else .error ()
    | _ =>
      match parseValue fuel cs with
      | .error _ => .error ()
      | .ok (v, rest1) =>
        match skipWs rest1 with
        | ',' :: rest2 => parseElements fuel (skipWs rest2) (v :: acc) false
        | ']' :: rest2 => .ok (.arr (v :: acc).reverse, rest2)
        | _ => .error ()

end

/-- Model of `JSON.parse`: the whole input must be one value plus whitespace. -/
def jsonParse (s : String) : Except Unit Json :=
  match parseValue (s.length * 2 + 8) s.data with
  | .error _ => .error ()
  | .ok (v, rest) =>
    match skipWs rest with
    | [] => .ok v
    | _ :: _ => .error ()

/-! ## `JSON.stringify` (compact, and with `null, 2` pretty-printing) -/

def escapeChar (c : Char) : List Char :=
  if c = '"' then ['\\', '"']
  else if c = '\\' then ['\\', '\\']
  else if c = '\n' then ['\\', 'n']
  else if c = '\r' then ['\\', 'r']
  else if c = '\t' then ['\\', 't']
  else if c = '\x08' then ['\\', 'b']
  else if c = '\x0c' then ['\\', 'f']
  else if c.toNat < 32 then
    let lo := c.toNat % 16
    let hi := c.toNat / 16
    let hexDigit := fun (n : Nat) => if n < 10 then Char.ofNat ('0'.toNat + n)
      else Char.ofNat ('a'.toNat + (n - 10))
    ['\\', 'u', '0', '0', hexDigit hi, hexDigit lo]
  else [c]

def quoteString (s : String) : String :=
  "\"" ++ String.mk (s.data.flatMap escapeChar) ++ "\""

mutual

/-- Compact `JSON.stringify` (used when persisting tool arguments/results). -/
def jsonStringify : Json → String
  | .null => "null"
  | .bool true => "true"
  | .bool false => "false"
  | .num lexeme => lexeme
  | .str s => quoteString s
  | .arr elems => "[" ++ String.intercalate "," (stringifyList elems) ++ "]"
  | .obj fields => "\x7b" ++ String.intercalate "," (stringifyFields fields) ++ "\x7d"

def stringifyList : List Json → List String
  | [] => []
  | j :: js => jsonStringify j :: stringifyList js

def stringifyFields : List (String × Json) → List String
  | [] => []
  | (k, v) :: fs => (quoteString k ++ ":" ++ jsonStringify v) :: stringifyFields fs

end

def indentOf (n : Nat) : String := String.mk (List.replicate (2 * n) ' ')

mutual

/-- `JSON.stringify(x, null, 2)` at nesting depth `depth`. -/
def jsonStringifyIndent (depth : Nat) : Json → String
  | .null => "null"
  | .bool true => "true"
  | .bool false => "false"
  | .num lexeme => lexeme
  | .str s => quoteString s
  | .arr [] => "[]"
  | .arr (j :: js) =>
    "[\n" ++
      String.intercalate ",\n" (stringifyIndentList (depth + 1) (j :: js)) ++
      "\n" ++ indentOf depth ++ "]"
  | .obj [] => "\x7b\x7d"
  | .obj (f :: fs) =>
    "\x7b\n" ++
      String.intercalate ",\n" (stringifyIndentFields (depth + 1) (f :: fs)) ++
      "\n" ++ indentOf depth ++ "\x7d"

def stringifyIndentList (depth : Nat) : List Json → List String
  | [] => []
  | j :: js => (indentOf depth ++ jsonStringifyIndent depth j) :: stringifyIndentList depth js

def stringifyIndentFields (depth : Nat) : List (String × Json) → List String
  | [] => []
  | (k, v) :: fs =>
    (indentOf depth ++ quoteString k ++ ": " ++ jsonStringifyIndent depth v) ::
      stringifyIndentFields depth fs

end

/-! ## JavaScript property access, and the Exa followup `filterResult`

`jsGet j k` models the JavaScript expression `j.k` on a parsed JSON value:
it throws (TypeError) when `j` is `null`, yields `undefined` (`none`) on
primitives and arrays or when the key is absent, and yields the field
(last duplicate wins, as `JSON.parse` keeps the last) on objects. -/

def jsGet (j : Json) (key : String) : Except Unit (Option Json) :=
  match j with
  | .null => .error ()
  | .obj fields => .ok ((fields.reverse.find? (fun f => f.1 == key)).map (·.2))
  | _ => .ok none

/-- `JSON.stringify` omits object fields whose value is `undefined`. -/
def omitUndefined (fields : List (String × Option Json)) : List (String × Json) :=
  fields.filterMap (fun f => f.2.map (fun v => (f.1, v)))

/-- The `try` body of `ExaSearchTool.followup.filterResult`: parse the raw
result, keep only `query` and the `title`/`url`/`text` of each entry of
`results` (missing `results` or a `null` one becomes `[]`; a non-array one
makes `.map` throw), and pretty-print with `JSON.stringify(filtered, null, 2)`. -/
def exaFilterAttempt (result : String) : Except Unit String := do
  let parsed ← jsonParse result
  let query ← jsGet parsed "query"
  let results? ← jsGet parsed "results"
  let mapped : List Json ←
    match results? with
    | none => pure []
    | some .null => pure []
    | some (.arr xs) =>
      xs.mapM (fun r => do
        let title ← jsGet r "title"
        let url ← jsGet r "url"
        let text ← jsGet r "text"
        pure (Json.obj (omitUndefined [("title", title), ("url", url), ("text", text)])))
    | some _ => .error ()
  pure (jsonStringifyIndent 0
    (Json.obj (omitUndefined [("query", query), ("results", some (.arr mapped))])))

/-- `ExaSearchTool.followup.filterResult`: the catch clause falls back to the
unfiltered result, so this filter itself never throws (filters in general are
`String → Except String String`, since a filter may throw). -/
def exaFilterResult (result : String) : Except String String :=
  .ok (match exaFilterAttempt result with
       | .ok s => s
       | .error _ => result)

/-! ## Tool descriptors and the registry -/

structure FollowupConfig where
  enabled : Bool
  systemPrompt : Option String := none
  filterResult : Option (String → Except String String) := none

/-- A registry entry. `execute` may throw, carrying the exception message;
the Zod input schema only feeds the wire-format conversion and is not part
of any claim, so it is not carried. -/
structure Tool where
  name : String
  description : String
  execute : Json → Except String String
  followup : Option FollowupConfig := none

def exaFollowupSystemPrompt : String :=
  "Based on the search results provided, please provide a comprehensive response to the user\x27s question. You MUST cite your sources by including the URLs and titles of the articles you reference. When mentioning information from the search results, always include the source URL in your response."

/-- `ExaSearchTool.followup`. -/
def exaFollowupConfig : FollowupConfig :=
  { enabled := true
    systemPrompt := some exaFollowupSystemPrompt
    filterResult := some exaFilterResult }

/-- `toolMap.get(name)`: `new Map(entries)` keeps the last entry for a
duplicate key. -/
def toolMapGet (tools : List Tool) (n : String) : Option Tool :=
  tools.reverse.find? (fun t => t.name == n)

def insertKey (ks : List String) (k : String) : List String :=
  if ks.contains k then ks else ks ++ [k]

/-- `Array.from(toolMap.keys())`: first-insertion order, deduplicated. -/
def toolMapKeys (tools : List Tool) : List String :=
  tools.foldl (fun ks t => insertKey ks t.name) []

def toolNotFoundMessage (tools : List Tool) (n : String) : String :=
  "Tool " ++ n ++ " not found. Available tools: " ++
    String.intercalate ", " (toolMapKeys tools)

/-! ## Messages -/

/-- A persisted/client-side message (`ChatMessage` in the source). -/
structure ChatMessage where
  role : String
  content : String
  toolName : Option String := none
  toolArgs : Option Json := none
  toolResult : Option Json := none

/-- A message sent to the model (`ChatCompletionMessageParam`). -/
structure ChatMsg where
  role : String
  content : String
deriving DecidableEq

/-- `filterMessagesForLLM`: keep only user/assistant/system turns. -/
def filterMessagesForLLM (messages : List ChatMessage) : List ChatMsg :=
  (messages.filter (fun m =>
      m.role == "user" || m.role == "assistant" || m.role == "system")).map
    (fun m => { role := m.role, content := m.content })

/-! ## The persisted message store

`plan : Nat → Bool` is the failure oracle of the external database: every
Prisma call consumes one operation ordinal (`opCount`) and throws when the
plan says so at that ordinal. Persistence exceptions are rendered with the
fixed message `"database error"` (the runtime text is provider-specific). -/

structure DbRecord where
  id : Nat
  sessionId : String
  role : String
  content : String
  toolName : Option String := none
  toolArgs : Option String := none
  toolResult : Option String := none
  isCollapsed : Bool := false
deriving DecidableEq

structure Db where
  nextId : Nat := 1
  opCount : Nat := 0
  records : List DbRecord := []
deriving DecidableEq

/-- `prisma.message.create`: on success the new record receives the next
stable identifier; `none` in the second component means the call threw. -/
def dbCreate (plan : Nat → Bool) (db : Db) (mkRec : Nat → DbRecord) :
    Db × Option Nat :=
  if plan db.opCount then
    ({ db with opCount := db.opCount + 1 }, none)
  else
    ({ nextId := db.nextId + 1
       opCount := db.opCount + 1
       records := db.records ++ [mkRec db.nextId] }, some db.nextId)

/-- `prisma.message.update({where: {id}, data: {content, toolResult}})`:
in-place update keyed by the stable identifier; `false` means the call threw. -/
def dbUpdate (plan : Nat → Bool) (db : Db) (id : Nat)
    (newContent : String) (newToolResult : String) : Db × Bool :=
  if plan db.opCount then
    ({ db with opCount := db.opCount + 1 }, false)
  else
    ({ db with
        opCount := db.opCount + 1
        records := db.records.map (fun r =>
          if r.id == id then
            { r with content := newContent, toolResult := some newToolResult }
          else r) }, true)

/-- `saveMessage`: the source wraps the insert in its own try/catch that only
logs, so a failure is swallowed and no value escapes. -/
def saveMessage (plan : Nat → Bool) (db : Db) (sessionId : String)
    (m : ChatMessage) : Db :=
  (dbCreate plan db (fun newId =>
    { id := newId
      sessionId := sessionId
      role := m.role
      content := m.content
      toolName := m.toolName
      toolArgs := m.toolArgs.map jsonStringify
      toolResult := m.toolResult.map jsonStringify
      isCollapsed := m.role == "tool_call" })).1

/-! ## Normalized events emitted to the caller -/

inductive Event where
  | text_chunk (content : String)
  | tool_call (name : String) (args : Json) (id : String) (index : Nat)
      (messageId : Option Nat)
  | tool_result (name : String) (result : String) (id : String) (index : Nat)
      (messageId : Option Nat)
  | error (message : String)
  | streamEnd

inductive EventTag where
  | text
  | call
  | result
  | err
  | fin
deriving DecidableEq, BEq

def Event.tag : Event → EventTag
  | .text_chunk _ => .text
  | .tool_call _ _ _ _ _ => .call
  | .tool_result _ _ _ _ _ => .result
  | .error _ => .err
  | .streamEnd => .fin

def countTag (evs : List Event) (t : EventTag) : Nat :=
  (evs.filter (fun e => e.tag == t)).length

/-! ## Tool-call fragment accumulation (the stream multiplexer) -/

/-- One slot of the `toolCalls` array: a partially assembled call. -/
structure ToolCallSlot where
  index : Nat
  id : String
  name : String
  arguments : String
deriving DecidableEq

/-- One entry of a chunk's `delta.tool_calls`. `fname`/`fargs` flatten the
optional `function` object; absent and present-but-empty behave identically
under the source's truthiness tests. -/
structure ToolCallDelta where
  index : Nat
  id : Option String := none
  fname : Option String := none
  fargs : Option String := none
deriving DecidableEq

/-- Lookup `toolCalls[index]` (the array is sparse; slots keep their index). -/
def slotGet : List ToolCallSlot → Nat → Option ToolCallSlot
  | [], _ => none
  | s :: ss, i => if s.index = i then some s else slotGet ss i

/-- Store a slot at its index, keeping ascending index order — the order in
which `Array.prototype.filter` and `forEach` visit a sparse array. -/
def slotSet (slots : List ToolCallSlot) (s : ToolCallSlot) : List ToolCallSlot :=
  match slots with
  | [] => [s]
  | t :: ts =>
    if s.index < t.index then s :: t :: ts
    else if s.index = t.index then s :: ts
    else t :: slotSet ts s

/-- Processing of one incremental tool-call update: create the slot on first
sight of its index (capturing `id || ''`), then append the `name` and
`arguments` deltas (the source guards each append by truthiness, so an empty
string is skipped — which appends nothing either way). -/
def applyToolCallDelta (slots : List ToolCallSlot) (d : ToolCallDelta) :
    List ToolCallSlot :=
  let s0 := match slotGet slots d.index with
    | some s => s
    | none => { index := d.index, id := d.id.getD "", name := "", arguments := "" }
  let s1 := match d.fname with
    | some n => if n = "" then s0 else { s0 with name := s0.name ++ n }
    | none => s0
  let s2 := match d.fargs with
    | some a => if a = "" then s1 else { s1 with arguments := s1.arguments ++ a }
    | none => s1
  slotSet slots s2

/-! ## The tool invoker (`executeToolConcurrently`) -/

/-- The outcome of one resolved tool call. -/
structure ToolExecution where
  toolName : String
  toolArgs : Json
  result : String
  tool : Tool
  messageId : Option Nat := none

/-- Tail of `executeToolConcurrently` after the call-started record has been
persisted (split out of the head only to linearize the early returns):
emit `tool_call`, resolve the registry, run the executor, attach the result
to the persisted record, emit `tool_result`. Every failure in here is the
generic catch: an `error` event and a `null` result. -/
def executeToolAfterSave (tools : List Tool) (plan : Nat → Bool)
    (toolCall : ToolCallSlot) (toolArgs : Json) (sessionId : Option String)
    (savedMessageId : Option Nat) (db : Db) :
    Option ToolExecution × List Event × Db :=
  let callEvent := Event.tool_call toolCall.name toolArgs toolCall.id
    toolCall.index savedMessageId
  match toolMapGet tools toolCall.name with
  | none =>
    (none, [callEvent, .error (toolNotFoundMessage tools toolCall.name)], db)
  | some toolInstance =>
    match toolInstance.execute toolArgs with
    | .error msg =>
      (none, [callEvent, .error ("Tool execution failed: " ++ msg)], db)
    | .ok result =>
      match sessionId, savedMessageId with
      | some _, some mid =>
        match dbUpdate plan db mid ("Tool " ++ toolCall.name ++ " executed")
            (jsonStringify (.str result)) with
        | (db2, false) =>
          (none, [callEvent, .error "Tool execution failed: database error"], db2)
        | (db2, true) =>
          (some { toolName := toolCall.name, toolArgs := toolArgs
                  result := result, tool := toolInstance
                  messageId := savedMessageId },
           [callEvent,
            .tool_result toolCall.name result toolCall.id toolCall.index
              savedMessageId],
           db2)
      | _, _ =>
        (some { toolName := toolCall.name, toolArgs := toolArgs
                result := result, tool := toolInstance
                messageId := savedMessageId },
         [callEvent,
          .tool_result toolCall.name result toolCall.id toolCall.index
            savedMessageId],
         db)

/-- `executeToolConcurrently`: one invocation. A malformed structure returns
`null` silently; an argument-parse failure is its own caught error; the
persisted call-started record is created before the executor runs, and a
throw anywhere inside the `try` (including the Prisma calls) becomes a
`Tool execution failed` error event with a `null` result. -/
def executeToolConcurrently (tools : List Tool) (plan : Nat → Bool)
    (toolCall : ToolCallSlot) (sessionId : Option String) (db : Db) :
    Option ToolExecution × List Event × Db :=
  if toolCall.name = "" ∨ toolCall.arguments = "" then
    (none, [], db)
  else
    match jsonParse toolCall.arguments with
    | .error _ =>
      (none, [.error "Invalid tool arguments: SyntaxError"], db)
    | .ok toolArgs =>
      match sessionId with
      | some sid =>
        match dbCreate plan db (fun newId =>
          { id := newId
            sessionId := sid
            role := "tool_call"
            content := "Calling " ++ toolCall.name
            toolName := some toolCall.name
            toolArgs := some (jsonStringify toolArgs)
            toolResult := none
            isCollapsed := true }) with
        | (db1, none) =>
          (none, [.error "Tool execution failed: database error"], db1)
        | (db1, some savedMessageId) =>
          executeToolAfterSave tools plan toolCall toolArgs sessionId
            (some savedMessageId) db1
      | none => executeToolAfterSave tools plan toolCall toolArgs none none db

/-- The `Promise.all` fan-out over the valid calls of a round, joined and
filtered to the non-null executions. Concurrent interleaving across
invocations is sequentialized in call order; each invocation owns a distinct
record, and the counts and per-invocation results proved below are
interleaving-invariant. -/
def runExecutions (tools : List Tool) (plan : Nat → Bool)
    (calls : List ToolCallSlot) (sessionId : Option String) (db : Db) :
    List ToolExecution × List Event × Db :=
  match calls with
  | [] => ([], [], db)
  | c :: cs =>
    let (r, evs, db1) := executeToolConcurrently tools plan c sessionId db
    let (rs, evs2, db2) := runExecutions tools plan cs sessionId db1
    ((match r with | some e => [e] | none => []) ++ rs, evs ++ evs2, db2)

/-! ## The followup composer (`generateFollowupMessages`) -/

def genericFollowupPrompt : String :=
  "You are a helpful assistant. Based on the tool results in the conversation, provide a comprehensive and helpful response to the user\x27s question. Analyze and summarize the information clearly."

/-- Whether an execution's descriptor carries an enabled followup policy. -/
def followupEnabled (e : ToolExecution) : Bool :=
  match e.tool.followup with
  | some cfg => cfg.enabled
  | none => false

/-- `execution.tool?.followup?.filterResult ? filterResult(result) : result` —
the filter application is unguarded, so a throwing filter propagates. -/
def applyResultFilter (e : ToolExecution) : Except String String :=
  match e.tool.followup with
  | some cfg =>
    match cfg.filterResult with
    | some filt => filt e.result
    | none => .ok e.result
  | none => .ok e.result

/-- JavaScript `Array.prototype.map` with a callback that may throw: the
first exception aborts the whole map and propagates. -/
def mapThrowable {α β : Type} (f : α → Except String β) : List α → Except String (List β)
  | [] => .ok []
  | x :: xs =>
    match f x with
    | .error m => .error m
    | .ok y =>
      match mapThrowable f xs with
      | .error m => .error m
      | .ok ys => .ok (y :: ys)

/-- The `systemPrompt`s of the enabled policies, in execution order, with
absent and empty ones dropped (the source filters by truthiness). -/
def enabledSystemPrompts (toolExecutions : List ToolExecution) : List String :=
  ((toolExecutions.filter followupEnabled).filterMap
      (fun e => e.tool.followup.bind (·.systemPrompt))).filter (fun p => p != "")

/-- `generateFollowupMessages`: the next round's message list. With at least
one enabled policy the system message is the blank-line joined enabled
prompts (generic fallback when that join is empty), and each execution's
result goes through its own filter; otherwise the generic system message and
unfiltered results are used. A throwing filter propagates out (`.error`). -/
def generateFollowupMessages (toolExecutions : List ToolExecution)
    (filteredMessages : List ChatMsg) : Except String (List ChatMsg) :=
  let toolsWithFollowup := toolExecutions.filter followupEnabled
  if toolsWithFollowup.isEmpty then
    .ok (({ role := "system", content := genericFollowupPrompt } : ChatMsg) ::
      filteredMessages ++
      toolExecutions.map (fun e =>
        ({ role := "assistant"
           content := "Tool " ++ e.toolName ++ " executed with result: " ++ e.result } : ChatMsg)))
  else
    let systemPrompts := String.intercalate "\n\n" (enabledSystemPrompts toolExecutions)
    let combinedSystemPrompt :=
      if systemPrompts = "" then genericFollowupPrompt else systemPrompts
    (mapThrowable (fun e =>
        match applyResultFilter e with
        | .error m => .error m
        | .ok filteredResult =>
          .ok ({ role := "assistant"
                 content := "Tool " ++ e.toolName ++ " executed with result: " ++
                   filteredResult ++ "\n\n" } : ChatMsg)) toolExecutions).map
      (fun entries =>
        ({ role := "system", content := combinedSystemPrompt } : ChatMsg) ::
          filteredMessages ++ entries)

/-! ## Request construction (`createChatParams`) -/

/-- The wire form of a registry entry (`convertToolsToOpenAIFormat`); the
JSON-schema rendering of the Zod input schema feeds only the provider and is
not carried. -/
structure OpenAITool where
  name : String
  description : String
deriving DecidableEq

def convertToolsToOpenAIFormat (tools : List Tool) : List OpenAITool :=
  tools.map (fun t => { name := t.name, description := t.description })

structure ChatParams where
  model : String
  messages : List ChatMsg
  tools : Option (List OpenAITool)
  toolChoiceAuto : Bool
deriving DecidableEq

def basePromptText : String :=
  "You are a helpful assistant. When you use tools to gather information, you MUST always provide a comprehensive response based on the tool results. After calling tools and receiving results, you MUST analyze and summarize the information for the user in a clear and helpful way. Never end your response with just a tool call - always follow up with explanatory text."

def multiToolPromptText : String :=
  "\n\nIMPORTANT: You can call multiple tools simultaneously in a single response when needed. For example, you can perform multiple searches at once to gather comprehensive information from different sources or search for different aspects of a topic. Don\x27t hesitate to use multiple tools when it would provide better, more complete answers."

def finalRoundPromptText (currentRound maxRounds : Nat) : String :=
  "\n\nIMPORTANT: This is your final opportunity to call tools (round " ++
    toString currentRound ++ "/" ++ toString maxRounds ++
    "). Please make all necessary tool calls now, as you won\x27t have another chance after this response."

def remainingRoundsPromptText (currentRound maxRounds : Nat) : String :=
  "\n\nNote: You have " ++ toString (maxRounds - currentRound) ++
    " more rounds of tool calls available if needed."

/-- `createChatParams`: enhanced system message (with escalating round
guidance), previous system messages stripped, tools offered only when
`includeTools` and the registry is non-empty. -/
def createChatParams (tools : List Tool) (maxRounds : Nat) (model : String)
    (messages : List ChatMsg) (includeTools : Bool) (currentRound : Nat) :
    ChatParams :=
  let openaiTools := if includeTools then convertToolsToOpenAIFormat tools else []
  let systemContent :=
    if includeTools && !openaiTools.isEmpty then
      basePromptText ++ multiToolPromptText ++
        (if maxRounds ≤ currentRound then
          finalRoundPromptText currentRound maxRounds
        else
          remainingRoundsPromptText currentRound maxRounds)
    else basePromptText
  let messagesWithoutSystem := messages.filter (fun m => m.role != "system")
  { model := if model = "" then "gpt-4o-mini" else model
    messages := ({ role := "system", content := systemContent } : ChatMsg) ::
      messagesWithoutSystem
    tools := if includeTools && !openaiTools.isEmpty then some openaiTools else none
    toolChoiceAuto := includeTools && !openaiTools.isEmpty }

/-! ## One round of the controller (`createChatStream`'s streaming loop) -/

/-- A chunk of the model's stream: `chunk.choices[0]`, when present. -/
structure Delta where
  toolCalls : Option (List ToolCallDelta) := none
  content : Option String := none

structure Choice where
  delta : Delta
  finishReason : Option String := none

/-- How the consumption of one round's stream ended. The constructor
arguments are reporting only — control flow matches the source's
return/break/fall-through. `allFailed` records how many valid calls the
round had (zero is the defensive no-eligible-fragments completion). -/
inductive RoundExit where
  | stop
  | allFailed (validCalls : Nat)
  | nextRound (messages : List ChatMsg)
  | crashed (msg : String)
  | exhausted (hasToolCalls : Bool)

/-- Final `saveMessage` of the accumulated assistant text (only with a
session and non-blank trimmed text). -/
def finalSave (plan : Nat → Bool) (sessionId : Option String)
    (allContent : String) (db : Db) : Db :=
  match sessionId with
  | some sid =>
    if allContent.trim = "" then db
    else saveMessage plan db sid { role := "assistant", content := allContent.trim }
  | none => db

/-- The `finish_reason === 'tool_calls'` branch: filter the slots to the
valid calls, fan out the invoker, and either terminate (no successful
execution: final save and `end`) or compose the next round. A filter throw
inside composition escapes to the outer catch (`crashed`). -/
def handleToolCallsFinish (tools : List Tool) (plan : Nat → Bool)
    (sessionId : Option String) (slots : List ToolCallSlot)
    (currentMessages : List ChatMsg) (allContent : String) (db : Db) :
    List Event × Db × RoundExit :=
  let validToolCalls := slots.filter (fun s => s.name != "" && s.arguments != "")
  let (toolExecutions, execEvents, db1) :=
    runExecutions tools plan validToolCalls sessionId db
  if toolExecutions.isEmpty then
    let db2 := finalSave plan sessionId allContent db1
    (execEvents ++ [.streamEnd], db2, .allFailed validToolCalls.length)
  else
    match generateFollowupMessages toolExecutions currentMessages with
    | .ok m => (execEvents, db1, .nextRound m)
    | .error msg => (execEvents, db1, .crashed msg)

/-- The `for await (const chunk of result)` loop of one round: merge
tool-call deltas by index, emit text chunks, and branch on the first finish
reason (plain completion saves and ends; `tool_calls` goes through
`handleToolCallsFinish`; an exhausted stream falls back to the loop footer). -/
def processChunks (tools : List Tool) (plan : Nat → Bool)
    (sessionId : Option String) (chunks : List (Option Choice))
    (slots : List ToolCallSlot) (hasToolCalls : Bool)
    (currentMessages : List ChatMsg) (allContent : String) (db : Db) :
    List Event × String × Db × RoundExit :=
  match chunks with
  | [] => ([], allContent, db, .exhausted hasToolCalls)
  | none :: rest =>
    processChunks tools plan sessionId rest slots hasToolCalls currentMessages
      allContent db
  | some choice :: rest =>
    let (slots1, hasTC1) :=
      match choice.delta.toolCalls with
      | some ds => (ds.foldl applyToolCallDelta slots, true)
      | none => (slots, hasToolCalls)
    let (textEvents, allContent1) :=
      match choice.delta.content with
      | some c =>
        if c = "" then (([] : List Event), allContent)
        else ([Event.text_chunk c], allContent ++ c)
      | none => ([], allContent)
    match choice.finishReason with
    | none =>
      let (evs, ac, db', ex) :=
        processChunks tools plan sessionId rest slots1 hasTC1 currentMessages
          allContent1 db
      (textEvents ++ evs, ac, db', ex)
    | some reason =>
      if hasTC1 && reason == "tool_calls" then
        let (evs, db', ex) :=
          handleToolCallsFinish tools plan sessionId slots1 currentMessages
            allContent1 db
        (textEvents ++ evs, allContent1, db', ex)
      else
        let db1 := finalSave plan sessionId allContent1 db
        (textEvents ++ [Event.streamEnd], allContent1, db1, .stop)

/-! ## The round controller loop and `createChatStream` -/

/-- The `while (currentRound <= MAX_TOOL_CALL_ROUNDS)` loop. `oracle n` is
the chunk stream the provider returns for the n-th request of this turn;
the returned triple is (events emitted, requests made in order, final
store). `fuel` only bounds the recursion: the source loop can re-request
without bound when a stream carries tool deltas but never a finish reason,
and every terminating source path is reached with any sufficient fuel.
Note `includeTools` recomputes the loop guard, so it is `true` on every
request that happens. -/
def chatLoop (tools : List Tool) (plan : Nat → Bool) (maxRounds : Nat)
    (oracle : Nat → List (Option Choice)) (sessionId : Option String)
    (modelStr : String) (fuel : Nat) (reqCount : Nat) (currentRound : Nat)
    (currentMessages : List ChatMsg) (allContent : String) (db : Db) :
    List Event × List ChatParams × Db :=
  match fuel with
  | 0 => ([], [], db)
  | fuel + 1 =>
    if currentRound ≤ maxRounds then
      let includeTools := decide (currentRound ≤ maxRounds)
      let params :=
        createChatParams tools maxRounds modelStr currentMessages includeTools
          currentRound
      let (evs, allContent1, db1, ex) :=
        processChunks tools plan sessionId (oracle reqCount) [] false
          currentMessages allContent db
      match ex with
      | .stop => (evs, [params], db1)
      | .allFailed _ => (evs, [params], db1)
      | .crashed msg => (evs ++ [Event.error msg, Event.streamEnd], [params], db1)
      | .nextRound m =>
        let (evs2, reqs2, db2) :=
          chatLoop tools plan maxRounds oracle sessionId modelStr fuel
            (reqCount + 1) (currentRound + 1) m allContent1 db1
        (evs ++ evs2, params :: reqs2, db2)
      | .exhausted hasTC =>
        if hasTC then
          let (evs2, reqs2, db2) :=
            chatLoop tools plan maxRounds oracle sessionId modelStr fuel
              (reqCount + 1) currentRound currentMessages allContent1 db1
          (evs ++ evs2, params :: reqs2, db2)
        else
          let db2 := finalSave plan sessionId allContent1 db1
          (evs ++ [Event.streamEnd], [params], db2)
    else
      ([Event.streamEnd], [], db)

structure ChatRequest where
  messages : List ChatMessage
  model : Option String := none
  sessionId : Option String := none

/-- `createChatStream`: filter the history for the model, persist a trailing
user message (best effort), then drive the round loop from round 1. -/
def createChatStream (tools : List Tool) (plan : Nat → Bool) (maxRounds : Nat)
    (oracle : Nat → List (Option Choice)) (request : ChatRequest) (db0 : Db)
    (fuel : Nat) : List Event × List ChatParams × Db :=
  let currentMessages := filterMessagesForLLM request.messages
  let db1 :=
    match request.sessionId with
    | some sid =>
      match currentMessages.getLast? with
      | some lastMessage =>
        if lastMessage.role = "user" then
          saveMessage plan db0 sid
            { role := lastMessage.role, content := lastMessage.content }
        else db0
      | none => db0
    | none => db0
  chatLoop tools plan maxRounds oracle request.sessionId
    (request.model.getD "gpt-4o-mini") fuel 0 1 currentMessages "" db1

/-! ## Derived definitions used in the claim statements and witnesses -/

/-! ## Merging characterization (claim C5)

`nameUpdates`/`argUpdates` spell the claim's right-hand side: the exact
concatenation, in arrival order, of the incremental updates carrying a given
index. `firstIdFor` is the id captured when the slot was created (first
sight of the index). -/

def nameUpdates : List ToolCallDelta → Nat → String
  | [], _ => ""
  | d :: ds, i =>
    (if d.index = i then d.fname.getD "" else "") ++ nameUpdates ds i

def argUpdates : List ToolCallDelta → Nat → String
  | [], _ => ""
  | d :: ds, i =>
    (if d.index = i then d.fargs.getD "" else "") ++ argUpdates ds i

def firstIdFor (ds : List ToolCallDelta) (i : Nat) : String :=
  match ds.find? (fun d => d.index == i) with
  | some d => d.id.getD ""
  | none => ""

def hasIndex (ds : List ToolCallDelta) (i : Nat) : Bool :=
  ds.any (fun d => d.index == i)

/-- The whole accumulation a round performs over its incoming updates. -/
def mergeToolCallDeltas (ds : List ToolCallDelta) : List ToolCallSlot :=
  ds.foldl applyToolCallDelta []

/-- The slot resulting from folding one update into the (possibly absent)
current slot of its index. -/
def combineSlot (s? : Option ToolCallSlot) (d : ToolCallDelta) : ToolCallSlot :=
  let s0 := s?.getD { index := d.index, id := d.id.getD "", name := "", arguments := "" }
  { s0 with name := s0.name ++ d.fname.getD ""
            arguments := s0.arguments ++ d.fargs.getD "" }

/-! ## Claim C2: throwing result filters and the composer -/

/-- A registry entry whose followup filter always throws. -/
def throwingFilterTool : Tool :=
  { name := "tf", description := "throws in its filter"
    execute := fun _ => .ok ""
    followup := some { enabled := true, filterResult := some (fun _ => .error "boom") } }

def throwingExecution : ToolExecution :=
  { toolName := "tf", toolArgs := .obj [], result := "raw", tool := throwingFilterTool }

/-- An execution of the search tool whose raw result is not valid JSON. -/
def malformedExaExecution : ToolExecution :=
  { toolName := "exa_search", toolArgs := .obj [], result := "not json"
    tool := { name := "exa_search", description := "search the web"
              execute := fun _ => .ok ""
              followup := some exaFollowupConfig } }

/-- Two synthetic executions with enabled policies and distinct prompt
overrides, to exercise prompt concatenation order. -/
def promptedExecutionA : ToolExecution :=
  { toolName := "a", toolArgs := .obj [], result := "r1"
    tool := { name := "a", description := ""
              execute := fun _ => .ok ""
              followup := some { enabled := true, systemPrompt := some "P1" } } }

def promptedExecutionB : ToolExecution :=
  { toolName := "b", toolArgs := .obj [], result := "r2"
    tool := { name := "b", description := ""
              execute := fun _ => .ok ""
              followup := some { enabled := true, systemPrompt := some "P2" } } }

/-! ## Invoker characterization (claims C6, C7) -/

/-- With no session, an invocation touches no store and depends only on the
registry and the call: its pure (result, events) part. -/
def invokePure (tools : List Tool) (c : ToolCallSlot) :
    Option ToolExecution × List Event :=
  ((executeToolConcurrently tools (fun _ => false) c none {}).1,
   (executeToolConcurrently tools (fun _ => false) c none {}).2.1)

def invokeOutcome (tools : List Tool) (c : ToolCallSlot) : Option ToolExecution :=
  (invokePure tools c).1

def invokeEvents (tools : List Tool) (c : ToolCallSlot) : List Event :=
  (invokePure tools c).2

/-! ## Concrete registry and calls used by the witnesses -/

def okTool : Tool :=
  { name := "t", description := "always succeeds", execute := fun _ => .ok "r" }

def failingTool : Tool :=
  { name := "f", description := "always fails", execute := fun _ => .error "exec boom" }

def pairRegistry : List Tool := [okTool, failingTool]

def slotOk : ToolCallSlot :=
  { index := 0, id := "id0", name := "t", arguments := "\x7b\x7d" }

def slotFail : ToolCallSlot :=
  { index := 1, id := "id1", name := "f", arguments := "\x7b\x7d" }

def slotUnknown : ToolCallSlot :=
  { index := 0, id := "idu", name := "nope", arguments := "\x7b\x7d" }

/-! ## Claims C8 and C9: persistence of the tool-call record -/

/-- The call-started record persisted before the executor runs. -/
def pendingToolCallRecord (sid : String) (c : ToolCallSlot) (a : Json)
    (idn : Nat) : DbRecord :=
  { id := idn, sessionId := sid, role := "tool_call"
    content := "Calling " ++ c.name
    toolName := some c.name, toolArgs := some (jsonStringify a)
    toolResult := none, isCollapsed := true }

/-- The same record after the single in-place result update. -/
def resolvedToolCallRecord (sid : String) (c : ToolCallSlot) (a : Json)
    (r : String) (idn : Nat) : DbRecord :=
  { id := idn, sessionId := sid, role := "tool_call"
    content := "Tool " ++ c.name ++ " executed"
    toolName := some c.name, toolArgs := some (jsonStringify a)
    toolResult := some (jsonStringify (.str r)), isCollapsed := true }

def failDelta : ToolCallDelta :=
  { index := 0, id := some "id1", fname := some "f", fargs := some "\x7b\x7d" }

def failChunk : Option Choice :=
  some { delta := { toolCalls := some [failDelta] }, finishReason := some "tool_calls" }

/-- A model that requests, in every round, one call to the failing tool. -/
def failOracle : Nat → List (Option Choice) := fun _ => [failChunk]

/-! ## Claim C1: behaviour at the round cap -/

def roundCapDelta : ToolCallDelta :=
  { index := 0, id := some "call0", fname := some "t", fargs := some "\x7b\x7d" }

def roundCapChunk : Option Choice :=
  some { delta := { toolCalls := some [roundCapDelta] }
         finishReason := some "tool_calls" }

/-- A model that keeps requesting one successful tool call in every round. -/
def roundCapOracle : Nat → List (Option Choice) := fun _ => [roundCapChunk]

def roundCapRun : List Event × List ChatParams × Db :=
  createChatStream [okTool] (fun _ => false) 3 roundCapOracle
    { messages := [] } {} 10

/-! ## Lemmas and claim theorems -/

lemma string_append_empty (s : String) : s ++ "" = s := by
  cases s with
  | mk data => show String.mk (data ++ []) = String.mk data
               rw [List.append_nil]

lemma string_empty_append (s : String) : "" ++ s = s := rfl

lemma string_append_assoc (a b c : String) : a ++ b ++ c = a ++ (b ++ c) := by
  cases a with
  | mk da =>
    cases b with
    | mk dbs =>
      cases c with
      | mk dc => show String.mk (da ++ dbs ++ dc) = String.mk (da ++ (dbs ++ dc))
                 rw [List.append_assoc]

lemma slotGet_slotSet (slots : List ToolCallSlot) (s : ToolCallSlot) (i : Nat) :
    slotGet (slotSet slots s) i = if s.index = i then some s else slotGet slots i := by
  induction slots with
  | nil => simp [slotSet, slotGet]
  | cons t ts ih =>
    by_cases hlt : s.index < t.index
    · simp [slotSet, hlt, slotGet]
    · by_cases heq : s.index = t.index
      · by_cases h : s.index = i
        · simp [slotSet, hlt, heq, slotGet, h, heq ▸ h]
        · have ht : t.index ≠ i := heq ▸ h
          simp [slotSet, hlt, heq, slotGet, h, ht]
      · have hts : t.index < s.index :=
          lt_of_le_of_ne (le_of_not_lt hlt) (fun hc => heq hc.symm)
        by_cases hti : t.index = i
        · have hsi : s.index ≠ i := fun hc => heq (hc.trans hti.symm)
          have hnlt : ¬ s.index < i := by omega
          simp [slotSet, hlt, heq, slotGet, hti, hsi, hnlt]
        · simp [slotSet, hlt, heq, slotGet, hti, ih]

lemma slotGet_mem_index (slots : List ToolCallSlot) (i : Nat) (s : ToolCallSlot)
    (h : slotGet slots i = some s) : s.index = i := by
  induction slots with
  | nil => simp [slotGet] at h
  | cons t ts ih =>
    by_cases hti : t.index = i
    · simp [slotGet, hti] at h
      exact h ▸ hti
    · simp [slotGet, hti] at h
      exact ih h

lemma applyToolCallDelta_eq (slots : List ToolCallSlot) (d : ToolCallDelta) :
    applyToolCallDelta slots d = slotSet slots (combineSlot (slotGet slots d.index) d) := by
  unfold applyToolCallDelta combineSlot
  cases hget : slotGet slots d.index with
  | some s =>
    cases hn : d.fname with
    | none =>
      cases ha : d.fargs with
      | none => simp [string_append_empty]
      | some a =>
        by_cases hae : a = "" <;> simp [hae, string_append_empty]
    | some n =>
      cases ha : d.fargs with
      | none =>
        by_cases hne : n = "" <;> simp [hne, string_append_empty]
      | some a =>
        by_cases hne : n = "" <;> by_cases hae : a = "" <;>
          simp [hne, hae, string_append_empty]
  | none =>
    cases hn : d.fname with
    | none =>
      cases ha : d.fargs with
      | none => simp [string_append_empty]
      | some a =>
        by_cases hae : a = "" <;> simp [hae, string_append_empty, string_empty_append]
    | some n =>
      cases ha : d.fargs with
      | none =>
        by_cases hne : n = "" <;> simp [hne, string_append_empty, string_empty_append]
      | some a =>
        by_cases hne : n = "" <;> by_cases hae : a = "" <;>
          simp [hne, hae, string_append_empty, string_empty_append]

lemma combineSlot_index (s? : Option ToolCallSlot) (d : ToolCallDelta)
    (h : ∀ s, s? = some s → s.index = d.index) :
    (combineSlot s? d).index = d.index := by
  cases hs : s? with
  | none => simp [combineSlot]
  | some s => simp [combineSlot, h s hs]

/-- One delta updates exactly its own slot, appending its (possibly empty)
name and arguments payloads; every other index is untouched. -/
lemma slotGet_applyToolCallDelta (slots : List ToolCallSlot)
    (d : ToolCallDelta) (i : Nat) :
    slotGet (applyToolCallDelta slots d) i =
      if d.index = i then some (combineSlot (slotGet slots i) d)
      else slotGet slots i := by
  have hidx : (combineSlot (slotGet slots d.index) d).index = d.index :=
    combineSlot_index _ _ (fun s hs => slotGet_mem_index _ _ _ hs)
  rw [applyToolCallDelta_eq, slotGet_slotSet, hidx]
  by_cases hdi : d.index = i
  · subst hdi; rfl
  · simp [hdi]

lemma mergeAux (ds : List ToolCallDelta) :
    ∀ (slots : List ToolCallSlot) (i : Nat),
      slotGet (ds.foldl applyToolCallDelta slots) i =
        match slotGet slots i with
        | some s =>
          some { s with name := s.name ++ nameUpdates ds i
                        arguments := s.arguments ++ argUpdates ds i }
        | none =>
          if hasIndex ds i then
            some { index := i, id := firstIdFor ds i
                   name := nameUpdates ds i, arguments := argUpdates ds i }
          else none := by
  induction ds with
  | nil =>
    intro slots i
    cases hsg : slotGet slots i with
    | some s => simp [nameUpdates, argUpdates, string_append_empty, hsg]
    | none => simp [hasIndex, hsg]
  | cons d ds ih =>
    intro slots i
    have hstep := slotGet_applyToolCallDelta slots d i
    rw [List.foldl_cons, ih (applyToolCallDelta slots d) i, hstep]
    by_cases hdi : d.index = i
    · subst hdi
      rw [if_pos rfl]
      cases hsg : slotGet slots d.index with
      | some s =>
        simp only [combineSlot, Option.getD, hsg]
        simp [nameUpdates, argUpdates, string_append_assoc, Option.getD]
      | none =>
        have hfirst : firstIdFor (d :: ds) d.index = d.id.getD "" := by
          simp [firstIdFor, List.find?]
        simp only [combineSlot, Option.getD, hsg]
        simp [nameUpdates, argUpdates, hasIndex, hfirst, string_empty_append,
          Option.getD]
    · rw [if_neg hdi]
      have hfirst : firstIdFor (d :: ds) i = firstIdFor ds i := by
        simp [firstIdFor, List.find?, show (d.index == i) = false by simp [hdi]]
      cases hsg : slotGet slots i with
      | some s => simp [nameUpdates, argUpdates, hdi, string_empty_append, hsg]
      | none =>
        simp [nameUpdates, argUpdates, hasIndex, hdi, hfirst, string_empty_append, hsg]

/-- C5. For every per-round streaming run and every slot index, the
assembled fragment's `name` and `arguments` each equal the exact
concatenation, in arrival order, of all incremental name (respectively
arguments) updates carrying that index; a slot exists exactly when its index
has been seen, it captures the first update's id, and updates to distinct
indices never interfere (the per-index result depends only on the updates
carrying that index). The second conjunct is scenario A: arguments split as
two fragments at index 0 merge to the parseable string for the query. -/
theorem toolcall_fragment_merge_is_concat :
    (∀ (ds : List ToolCallDelta) (i : Nat),
      slotGet (mergeToolCallDeltas ds) i =
        if hasIndex ds i then
          some { index := i, id := firstIdFor ds i
                 name := nameUpdates ds i, arguments := argUpdates ds i }
        else none) ∧
    (slotGet (mergeToolCallDeltas
        [{ index := 0, id := some "call_0", fname := some "search",
           fargs := some "\x7b\"que" },
         { index := 0, fargs := some "ry\":\"x\"\x7d" }]) 0 =
      some { index := 0, id := "call_0", name := "search",
             arguments := "\x7b\"query\":\"x\"\x7d" } ∧
     (jsonParse "\x7b\"query\":\"x\"\x7d").isOk = true) := by
  constructor
  · intro ds i
    have := mergeAux ds [] i
    simpa [mergeToolCallDeltas, slotGet] using this
  · constructor
    · decide
    · decide

/-- C2, counterexample. The composer applies a `resultFilter` unguarded: an
execution whose filter raises makes `generateFollowupMessages` propagate the
exception, so no followup context entry (filtered or unfiltered) is emitted
and composition of the next round's message list is aborted — contradicting
the claim that a throwing filter never aborts composition. -/
theorem throwing_filter_aborts_composition :
    generateFollowupMessages [throwingExecution] [] = .error "boom" ∧
    (generateFollowupMessages [throwingExecution] []).isOk = false := by
  constructor
  · rfl
  · rfl

lemma exaFilterResult_parse_fail (s : String) (h : jsonParse s = .error ()) :
    exaFilterResult s = .ok s := by
  unfold exaFilterResult exaFilterAttempt
  rw [h]
  rfl

/-- C2, amended. Fail-safety lives in the registered filter, not the
composer: `ExaSearchTool`'s `filterResult` catches its own parse failure and
returns the unfiltered result, so for an execution carrying that policy a
malformed result string still produces a followup context entry containing
the unfiltered result (while the composer itself, as the counterexample
shows, would be aborted by a filter that actually throws). -/
theorem exa_filter_fails_safe_to_unfiltered :
    (∀ s, jsonParse s = .error () → exaFilterResult s = .ok s) ∧
    (∀ (e : ToolExecution) (msgs : List ChatMsg),
      e.tool.followup = some exaFollowupConfig →
      jsonParse e.result = .error () →
      generateFollowupMessages [e] msgs =
        .ok (({ role := "system", content := exaFollowupSystemPrompt } : ChatMsg) ::
          msgs ++
          [({ role := "assistant"
              content := "Tool " ++ e.toolName ++ " executed with result: " ++
                e.result ++ "\n\n" } : ChatMsg)])) := by
  constructor
  · exact exaFilterResult_parse_fail
  · intro e msgs hcfg hparse
    have henabled : followupEnabled e = true := by
      simp [followupEnabled, hcfg, exaFollowupConfig]
    have hfilt : applyResultFilter e = .ok e.result := by
      rw [applyResultFilter, hcfg]
      show exaFilterResult e.result = .ok e.result
      exact exaFilterResult_parse_fail _ hparse
    have hprompts : enabledSystemPrompts [e] = [exaFollowupSystemPrompt] := by
      simp [enabledSystemPrompts, henabled, hcfg, exaFollowupConfig]
      decide
    unfold generateFollowupMessages
    simp only [List.filter, henabled, List.isEmpty_cons, hprompts]
    simp only [mapThrowable, hfilt]
    have hgo : String.intercalate.go exaFollowupSystemPrompt "\n\n" [] =
        exaFollowupSystemPrompt := rfl
    have hone : String.intercalate "\n\n" [exaFollowupSystemPrompt] =
        exaFollowupSystemPrompt := rfl
    have hne : exaFollowupSystemPrompt ≠ "" := by decide
    simp [hgo, hne, Except.map, hone]

/-- Witness for the amended C2 at a concrete malformed result. -/
theorem exa_filter_fails_safe_to_unfiltered_witness :
    jsonParse "not json" = .error () ∧
    exaFilterResult "not json" = .ok "not json" ∧
    generateFollowupMessages [malformedExaExecution] [] =
      .ok [({ role := "system", content := exaFollowupSystemPrompt } : ChatMsg),
           ({ role := "assistant"
              content := "Tool exa_search executed with result: not json\n\n" } : ChatMsg)] := by
  refine ⟨rfl, exa_filter_fails_safe_to_unfiltered.1 "not json" rfl, ?_⟩
  have h := exa_filter_fails_safe_to_unfiltered.2 malformedExaExecution [] rfl rfl
  exact h

/-! ## Claim C3: shape of the composed next-round message list -/

lemma mapThrowable_filter_entries (execs : List ToolExecution) :
    ∀ rs : List String, mapThrowable applyResultFilter execs = .ok rs →
      mapThrowable (fun e =>
        match applyResultFilter e with
        | .error m => .error m
        | .ok filteredResult =>
          .ok ({ role := "assistant"
                 content := "Tool " ++ e.toolName ++ " executed with result: " ++
                   filteredResult ++ "\n\n" } : ChatMsg)) execs =
      .ok ((execs.zip rs).map (fun p =>
        ({ role := "assistant"
           content := "Tool " ++ p.1.toolName ++ " executed with result: " ++
             p.2 ++ "\n\n" } : ChatMsg))) := by
  induction execs with
  | nil =>
    intro rs h
    simp [mapThrowable] at h
    subst h
    simp [mapThrowable]
  | cons e es ih =>
    intro rs h
    rw [mapThrowable] at h
    cases hf : applyResultFilter e with
    | error msg => rw [hf] at h; exact absurd h (by simp)
    | ok r =>
      rw [hf] at h
      cases hrest : mapThrowable applyResultFilter es with
      | error msg => rw [hrest] at h; exact absurd h (by simp)
      | ok rs' =>
        rw [hrest] at h
        simp only [Except.ok.injEq] at h
        subst h
        rw [mapThrowable, hf, ih rs' hrest]
        rfl

/-- C3. For every round whose execution list contains at least one execution
with an enabled followup policy, the composed next round's message list
starts with a system message equal to the blank-line-separated concatenation,
in execution order, of the enabled policies' system-prompt overrides
(`enabledSystemPrompts`), falling back to the generic summarize-findings
instruction when none provide one; it continues with the prior filtered
history and one assistant entry per execution whose result went through that
execution's own `resultFilter` (`rs` is the list of per-execution filtered
results; executions without a filter contribute their raw result). -/
theorem followup_system_message_concatenation (execs : List ToolExecution)
    (msgs : List ChatMsg) (rs : List String)
    (h1 : (execs.filter followupEnabled).isEmpty = false)
    (h2 : mapThrowable applyResultFilter execs = .ok rs) :
    generateFollowupMessages execs msgs =
      .ok (({ role := "system"
              content :=
                if String.intercalate "\n\n" (enabledSystemPrompts execs) = ""
                then genericFollowupPrompt
                else String.intercalate "\n\n" (enabledSystemPrompts execs) } : ChatMsg) ::
        msgs ++ (execs.zip rs).map (fun p =>
          ({ role := "assistant"
             content := "Tool " ++ p.1.toolName ++ " executed with result: " ++
               p.2 ++ "\n\n" } : ChatMsg))) := by
  unfold generateFollowupMessages
  simp only [h1, Bool.false_eq_true, if_false]
  rw [mapThrowable_filter_entries execs rs h2]
  rfl

/-- Witness for C3 at two concrete executions: the system message is
`"P1\n\nP2"` (execution order, blank-line separated) and each execution
contributes its own unfiltered result entry. -/
theorem followup_system_message_concatenation_witness :
    ([promptedExecutionA, promptedExecutionB].filter followupEnabled).isEmpty = false ∧
    mapThrowable applyResultFilter [promptedExecutionA, promptedExecutionB] = .ok ["r1", "r2"] ∧
    generateFollowupMessages [promptedExecutionA, promptedExecutionB] [] =
      .ok [({ role := "system", content := "P1\n\nP2" } : ChatMsg),
           ({ role := "assistant", content := "Tool a executed with result: r1\n\n" } : ChatMsg),
           ({ role := "assistant", content := "Tool b executed with result: r2\n\n" } : ChatMsg)] := by
  refine ⟨rfl, rfl, ?_⟩
  have h := followup_system_message_concatenation
    [promptedExecutionA, promptedExecutionB] [] ["r1", "r2"] rfl rfl
  exact h

lemma executeToolConcurrently_none (tools : List Tool) (plan : Nat → Bool)
    (c : ToolCallSlot) (db : Db) :
    executeToolConcurrently tools plan c none db =
      (invokeOutcome tools c, invokeEvents tools c, db) := by
  unfold invokeOutcome invokeEvents invokePure
  unfold executeToolConcurrently
  by_cases hval : c.name = "" ∨ c.arguments = ""
  · simp [hval]
  · simp only [if_neg hval]
    cases hp : jsonParse c.arguments with
    | error u => simp
    | ok a =>
      simp only []
      unfold executeToolAfterSave
      cases hl : toolMapGet tools c.name with
      | none => simp [hl]
      | some t =>
        simp only [hl]
        cases he : t.execute a with
        | error msg => simp [he]
        | ok r => simp [he]

lemma runExecutions_none (tools : List Tool) (plan : Nat → Bool)
    (calls : List ToolCallSlot) (db : Db) :
    runExecutions tools plan calls none db =
      (calls.filterMap (invokeOutcome tools),
       (calls.map (invokeEvents tools)).flatten, db) := by
  induction calls with
  | nil => simp [runExecutions]
  | cons c cs ih =>
    simp only [runExecutions, executeToolConcurrently_none, ih]
    cases hr : invokeOutcome tools c with
    | none => simp [List.filterMap_cons, hr]
    | some e => simp [List.filterMap_cons, hr]

lemma countTag_append (evs1 evs2 : List Event) (t : EventTag) :
    countTag (evs1 ++ evs2) t = countTag evs1 t + countTag evs2 t := by
  simp [countTag, List.filter_append]

/-- An eligible call (non-empty name and arguments, parseable arguments,
resolvable name) invokes the executor: success yields exactly the execution
plus a `tool_call`/`tool_result` pair, executor failure yields nothing plus a
`tool_call` and one `error` event. -/
lemma invokePure_eligible (tools : List Tool) (c : ToolCallSlot)
    (h1 : c.name ≠ "") (h2 : c.arguments ≠ "")
    (a : Json) (hp : jsonParse c.arguments = .ok a)
    (t : Tool) (hl : toolMapGet tools c.name = some t) :
    (∀ r, t.execute a = .ok r →
      invokePure tools c =
        (some { toolName := c.name, toolArgs := a, result := r, tool := t
                messageId := none },
         [Event.tool_call c.name a c.id c.index none,
          Event.tool_result c.name r c.id c.index none])) ∧
    (∀ msg, t.execute a = .error msg →
      invokePure tools c =
        (none,
         [Event.tool_call c.name a c.id c.index none,
          Event.error ("Tool execution failed: " ++ msg)])) := by
  have hval : ¬ (c.name = "" ∨ c.arguments = "") := by
    intro h; cases h with
    | inl h => exact h1 h
    | inr h => exact h2 h
  constructor
  · intro r he
    unfold invokePure executeToolConcurrently executeToolAfterSave
    simp [hval, hp, hl, he]
  · intro msg he
    unfold invokePure executeToolConcurrently executeToolAfterSave
    simp [hval, hp, hl, he]

/-- C7. For every eligible tool-call fragment whose name does not resolve in
the registry, the invoker emits the not-found error event, the invocation
yields nothing (and, with no session, leaves the store untouched), and the
round's fan-out over any surrounding calls still produces exactly the
executions of the other calls — the lookup failure is non-fatal for the
round. -/
theorem unresolved_tool_skipped_round_continues (tools : List Tool)
    (plan : Nat → Bool) (c : ToolCallSlot) (db : Db) (a : Json)
    (h1 : c.name ≠ "") (h2 : c.arguments ≠ "")
    (hp : jsonParse c.arguments = .ok a)
    (hl : toolMapGet tools c.name = none) :
    executeToolConcurrently tools plan c none db =
      (none,
       [Event.tool_call c.name a c.id c.index none,
        Event.error (toolNotFoundMessage tools c.name)], db) ∧
    (∀ (v1 v2 : List ToolCallSlot) (db' : Db),
      (runExecutions tools plan (v1 ++ c :: v2) none db').1 =
        (runExecutions tools plan v1 none db').1 ++
          (runExecutions tools plan v2 none db').1 ∧
      countTag (runExecutions tools plan (v1 ++ c :: v2) none db').2.1 .err =
        countTag (runExecutions tools plan v1 none db').2.1 .err + 1 +
          countTag (runExecutions tools plan v2 none db').2.1 .err) := by
  have hval : ¬ (c.name = "" ∨ c.arguments = "") := by
    intro h; cases h with
    | inl h => exact h1 h
    | inr h => exact h2 h
  have hpure : invokePure tools c =
      (none,
       [Event.tool_call c.name a c.id c.index none,
        Event.error (toolNotFoundMessage tools c.name)]) := by
    unfold invokePure executeToolConcurrently executeToolAfterSave
    simp [hval, hp, hl]
  constructor
  · rw [executeToolConcurrently_none, invokeOutcome, invokeEvents, hpure]
  · intro v1 v2 db'
    constructor
    · rw [runExecutions_none, runExecutions_none, runExecutions_none]
      simp [List.filterMap_append, List.filterMap_cons, invokeOutcome, hpure]
    · rw [runExecutions_none, runExecutions_none, runExecutions_none]
      simp only [List.map_append, List.map_cons, List.flatten_append, List.flatten_cons]
      rw [countTag_append, countTag_append]
      have hev : countTag (invokeEvents tools c) .err = 1 := by
        rw [invokeEvents, hpure]
        rfl
      rw [hev]
      ring

/-! ## Claim C6: partial failure within a round's fan-out -/

lemma countTag_via_map (evs : List Event) (t : EventTag) :
    countTag evs t = ((evs.map Event.tag).filter (fun x => x == t)).length := by
  have hcomp : ((fun x => x == t) ∘ Event.tag) = (fun e : Event => e.tag == t) := rfl
  simp [countTag, List.filter_map, hcomp]

lemma invokeEvents_tags (tools : List Tool) (c : ToolCallSlot)
    (h1 : c.name ≠ "") (h2 : c.arguments ≠ "")
    (a : Json) (hp : jsonParse c.arguments = .ok a)
    (t : Tool) (hl : toolMapGet tools c.name = some t) :
    (invokeEvents tools c).map Event.tag =
      [.call, if (invokeOutcome tools c).isSome then .result else .err] := by
  cases he : t.execute a with
  | ok r =>
    have h := (invokePure_eligible tools c h1 h2 a hp t hl).1 r he
    simp [invokeEvents, invokeOutcome, h, Event.tag]
  | error msg =>
    have h := (invokePure_eligible tools c h1 h2 a hp t hl).2 msg he
    simp [invokeEvents, invokeOutcome, h, Event.tag]

lemma runExec_eligible_counts (tools : List Tool) (calls : List ToolCallSlot)
    (helig : ∀ c ∈ calls, c.name ≠ "" ∧ c.arguments ≠ "" ∧
      (jsonParse c.arguments).isOk = true ∧ (toolMapGet tools c.name).isSome = true) :
    countTag (calls.map (invokeEvents tools)).flatten .err =
      (calls.filter (fun c => (invokeOutcome tools c).isNone)).length ∧
    countTag (calls.map (invokeEvents tools)).flatten .result =
      (calls.filterMap (invokeOutcome tools)).length := by
  induction calls with
  | nil => simp [countTag]
  | cons c cs ih =>
    obtain ⟨hc1, hc2, hc3, hc4⟩ := helig c (by simp)
    obtain ⟨a, hp⟩ : ∃ a, jsonParse c.arguments = .ok a := by
      cases hj : jsonParse c.arguments with
      | error u => rw [hj] at hc3; simp [Except.isOk, Except.toBool] at hc3
      | ok a => exact ⟨a, rfl⟩
    obtain ⟨t, hl⟩ : ∃ t, toolMapGet tools c.name = some t := by
      cases hj : toolMapGet tools c.name with
      | none => rw [hj] at hc4; simp at hc4
      | some t => exact ⟨t, rfl⟩
    have htags := invokeEvents_tags tools c hc1 hc2 a hp t hl
    have ihr := ih (fun x hx => helig x (by simp [hx]))
    simp only [List.map_cons, List.flatten_cons, countTag_append]
    constructor
    · rw [countTag_via_map (invokeEvents tools c), htags]
      cases hr : invokeOutcome tools c with
      | none =>
        simp [hr, List.filter_cons, ihr.1,
          show (EventTag.call == EventTag.err) = false from rfl,
          show (EventTag.err == EventTag.err) = true from rfl, Nat.add_comm]
      | some e =>
        simp [hr, List.filter_cons, ihr.1,
          show (EventTag.call == EventTag.err) = false from rfl,
          show (EventTag.result == EventTag.err) = false from rfl]
    · rw [countTag_via_map (invokeEvents tools c), htags]
      cases hr : invokeOutcome tools c with
      | none =>
        simp [hr, List.filterMap_cons, ihr.2,
          show (EventTag.call == EventTag.result) = false from rfl,
          show (EventTag.err == EventTag.result) = false from rfl]
      | some e =>
        simp [hr, List.filterMap_cons, ihr.2,
          show (EventTag.call == EventTag.result) = false from rfl,
          show (EventTag.result == EventTag.result) = true from rfl, Nat.add_comm]

/-- C6. In a round with two or more eligible calls where some executors fail
and at least one succeeds: the joined result set is exactly one
`ToolExecution` per successful invocation (in call order), exactly one
`error` event is emitted per failed invocation and one `tool_result` per
successful one, the store is untouched (no session here), and the
finish-branch proceeds to compose the next round from exactly the successful
executions — a failure aborts neither its siblings nor the round. -/
theorem failed_invocation_isolated_in_round (tools : List Tool)
    (plan : Nat → Bool) (calls : List ToolCallSlot) (msgs : List ChatMsg)
    (content : String) (db : Db)
    (hlen : 2 ≤ calls.length)
    (helig : ∀ c ∈ calls, c.name ≠ "" ∧ c.arguments ≠ "" ∧
      (jsonParse c.arguments).isOk = true ∧ (toolMapGet tools c.name).isSome = true)
    (hfail : ∃ c ∈ calls, invokeOutcome tools c = none)
    (hsucc : calls.filterMap (invokeOutcome tools) ≠ []) :
    (runExecutions tools plan calls none db).1 =
      calls.filterMap (invokeOutcome tools) ∧
    (runExecutions tools plan calls none db).2.2 = db ∧
    countTag (runExecutions tools plan calls none db).2.1 .err =
      (calls.filter (fun c => (invokeOutcome tools c).isNone)).length ∧
    countTag (runExecutions tools plan calls none db).2.1 .result =
      (calls.filterMap (invokeOutcome tools)).length ∧
    handleToolCallsFinish tools plan none calls msgs content db =
      ((calls.map (invokeEvents tools)).flatten, db,
       match generateFollowupMessages (calls.filterMap (invokeOutcome tools)) msgs with
       | .ok m => .nextRound m
       | .error msg => .crashed msg) := by
  have hre := runExecutions_none tools plan calls db
  have hcounts := runExec_eligible_counts tools calls helig
  refine ⟨by rw [hre], by rw [hre], by rw [hre]; exact hcounts.1,
    by rw [hre]; exact hcounts.2, ?_⟩
  have hfilter : calls.filter (fun s => s.name != "" && s.arguments != "") = calls := by
    apply List.filter_eq_self.mpr
    intro c hc
    obtain ⟨hc1, hc2, _, _⟩ := helig c hc
    simp [hc1, hc2]
  unfold handleToolCallsFinish
  rw [hfilter]
  simp only [hre]
  have hempty : (calls.filterMap (invokeOutcome tools)).isEmpty = false := by
    cases hm : calls.filterMap (invokeOutcome tools) with
    | nil => exact absurd hm hsucc
    | cons x xs => simp
  simp only [hempty, Bool.false_eq_true, if_false]
  cases generateFollowupMessages (calls.filterMap (invokeOutcome tools)) msgs <;> rfl

/-- Witness for C6 at scenario B: calls at indices 0 and 1, the executor at
index 1 fails and index 0 succeeds — one execution, one error event, one
result event, and composition proceeds from the single success. -/
theorem failed_invocation_isolated_in_round_witness :
    2 ≤ ([slotOk, slotFail] : List ToolCallSlot).length ∧
    invokeOutcome pairRegistry slotFail = none ∧
    (runExecutions pairRegistry (fun _ => false) [slotOk, slotFail] none {}).1 =
      [slotOk, slotFail].filterMap (invokeOutcome pairRegistry) ∧
    countTag (runExecutions pairRegistry (fun _ => false) [slotOk, slotFail] none {}).2.1 .err = 1 ∧
    countTag (runExecutions pairRegistry (fun _ => false) [slotOk, slotFail] none {}).2.1 .result = 1 ∧
    handleToolCallsFinish pairRegistry (fun _ => false) none [slotOk, slotFail] [] "" {} =
      (([slotOk, slotFail].map (invokeEvents pairRegistry)).flatten, {},
       match generateFollowupMessages
           ([slotOk, slotFail].filterMap (invokeOutcome pairRegistry)) [] with
       | .ok m => .nextRound m
       | .error msg => .crashed msg) := by
  have hsucc : [slotOk, slotFail].filterMap (invokeOutcome pairRegistry) ≠ [] := by
    intro hcontra
    have hval : [slotOk, slotFail].filterMap (invokeOutcome pairRegistry) =
        [{ toolName := "t", toolArgs := .obj [], result := "r", tool := okTool
           messageId := none }] := rfl
    rw [hval] at hcontra
    exact List.cons_ne_nil _ _ hcontra
  have h := failed_invocation_isolated_in_round pairRegistry (fun _ => false)
    [slotOk, slotFail] [] "" {} (by decide) (by decide)
    ⟨slotFail, by decide, rfl⟩ hsucc
  exact ⟨by decide, rfl, h.1, h.2.2.1.trans rfl, h.2.2.2.1.trans rfl, h.2.2.2.2⟩

/-- Witness for C7 at a concrete unresolved name. -/
theorem unresolved_tool_skipped_round_continues_witness :
    toolMapGet [okTool] "nope" = none ∧
    executeToolConcurrently [okTool] (fun _ => false) slotUnknown none {} =
      (none,
       [Event.tool_call "nope" (Json.obj []) "idu" 0 none,
        Event.error (toolNotFoundMessage [okTool] "nope")], {}) ∧
    (runExecutions [okTool] (fun _ => false) ([slotOk] ++ slotUnknown :: []) none {}).1 =
      (runExecutions [okTool] (fun _ => false) [slotOk] none {}).1 ++
        (runExecutions [okTool] (fun _ => false) [] none {}).1 := by
  have h := unresolved_tool_skipped_round_continues [okTool] (fun _ => false)
    slotUnknown {} (Json.obj []) (by decide) (by decide) rfl rfl
  exact ⟨rfl, h.1, (h.2 [slotOk] [] {}).1⟩

lemma list_map_id_of {α : Type} (l : List α) (f : α → α)
    (h : ∀ x ∈ l, f x = x) : l.map f = l := by
  induction l with
  | nil => rfl
  | cons x xs ih =>
    rw [List.map_cons, h x (by simp), ih (fun y hy => h y (by simp [hy]))]

/-- With a session, a parsed invocation first persists the call-started
record (assigning `db.nextId`): a failing create is caught by the generic
handler, otherwise execution continues on the store holding the pending
record. -/
lemma executeToolConcurrently_session (tools : List Tool) (plan : Nat → Bool)
    (c : ToolCallSlot) (sid : String) (db : Db) (a : Json)
    (h1 : c.name ≠ "") (h2 : c.arguments ≠ "")
    (hp : jsonParse c.arguments = .ok a) :
    executeToolConcurrently tools plan c (some sid) db =
      if plan db.opCount then
        (none, [Event.error "Tool execution failed: database error"],
         { db with opCount := db.opCount + 1 })
      else
        executeToolAfterSave tools plan c a (some sid) (some db.nextId)
          { nextId := db.nextId + 1, opCount := db.opCount + 1
            records := db.records ++ [pendingToolCallRecord sid c a db.nextId] } := by
  have hval : ¬ (c.name = "" ∨ c.arguments = "") := by
    intro h; cases h with
    | inl h => exact h1 h
    | inr h => exact h2 h
  unfold executeToolConcurrently
  simp only [if_neg hval, hp]
  unfold dbCreate
  by_cases hpl : plan db.opCount
  · simp [hpl]
  · simp [hpl, pendingToolCallRecord]

/-- C8, counterexample. With a failure plan under which the tool-call record
insert throws, the invocation emits an `error` event and yields nothing: the
persistence failure is surfaced to the caller and aborts the invocation,
contradicting the claim that every persistence failure is logged and
swallowed. -/
theorem persistence_failure_surfaces_error_event :
    (executeToolConcurrently [okTool] (fun _ => true) slotOk (some "s") {}).1 = none ∧
    (executeToolConcurrently [okTool] (fun _ => true) slotOk (some "s") {}).2.1 =
      [Event.error "Tool execution failed: database error"] := by
  exact ⟨rfl, rfl⟩

/-- C8, amended. Only the `saveMessage` appends (user and final assistant
messages) swallow persistence failures. A failure of the tool-call record
create, or of the result update, is caught by the invocation's generic
handler: an `error` event is emitted and that invocation yields nothing,
while sibling invocations and the round continue (the fan-out recursion
proceeds on the remaining calls). -/
theorem tool_record_persistence_failure_aborts_invocation_only :
    (∀ (tools : List Tool) (plan : Nat → Bool) (c : ToolCallSlot) (sid : String)
        (db : Db) (a : Json),
      c.name ≠ "" → c.arguments ≠ "" → jsonParse c.arguments = .ok a →
      plan db.opCount = true →
      executeToolConcurrently tools plan c (some sid) db =
        (none, [Event.error "Tool execution failed: database error"],
         { db with opCount := db.opCount + 1 })) ∧
    (∀ (tools : List Tool) (plan : Nat → Bool) (c : ToolCallSlot) (sid : String)
        (db : Db) (a : Json) (t : Tool) (r : String),
      c.name ≠ "" → c.arguments ≠ "" → jsonParse c.arguments = .ok a →
      plan db.opCount = false →
      toolMapGet tools c.name = some t →
      t.execute a = .ok r →
      plan (db.opCount + 1) = true →
      executeToolConcurrently tools plan c (some sid) db =
        (none,
         [Event.tool_call c.name a c.id c.index (some db.nextId),
          Event.error "Tool execution failed: database error"],
         { nextId := db.nextId + 1, opCount := db.opCount + 2
           records := db.records ++ [pendingToolCallRecord sid c a db.nextId] })) ∧
    (∀ (tools : List Tool) (plan : Nat → Bool) (c : ToolCallSlot)
        (cs : List ToolCallSlot) (sid : String) (db : Db) (a : Json),
      c.name ≠ "" → c.arguments ≠ "" → jsonParse c.arguments = .ok a →
      plan db.opCount = true →
      runExecutions tools plan (c :: cs) (some sid) db =
        ((runExecutions tools plan cs (some sid)
            { db with opCount := db.opCount + 1 }).1,
         Event.error "Tool execution failed: database error" ::
           (runExecutions tools plan cs (some sid)
             { db with opCount := db.opCount + 1 }).2.1,
         (runExecutions tools plan cs (some sid)
           { db with opCount := db.opCount + 1 }).2.2)) := by
  have hcreateFail : ∀ (tools : List Tool) (plan : Nat → Bool) (c : ToolCallSlot)
      (sid : String) (db : Db) (a : Json),
      c.name ≠ "" → c.arguments ≠ "" → jsonParse c.arguments = .ok a →
      plan db.opCount = true →
      executeToolConcurrently tools plan c (some sid) db =
        (none, [Event.error "Tool execution failed: database error"],
         { db with opCount := db.opCount + 1 }) := by
    intro tools plan c sid db a h1 h2 hp hpl
    rw [executeToolConcurrently_session tools plan c sid db a h1 h2 hp, if_pos hpl]
  refine ⟨hcreateFail, ?_, ?_⟩
  · intro tools plan c sid db a t r h1 h2 hp hpl hl he hpl2
    rw [executeToolConcurrently_session tools plan c sid db a h1 h2 hp, if_neg (by simp [hpl])]
    unfold executeToolAfterSave
    simp only [hl, he]
    unfold dbUpdate
    simp [hpl2]
  · intro tools plan c cs sid db a h1 h2 hp hpl
    rw [runExecutions, hcreateFail tools plan c sid db a h1 h2 hp hpl]
    rcases hrec : runExecutions tools plan cs (some sid)
      { db with opCount := db.opCount + 1 } with ⟨rs, evs2, db2⟩
    simp [hrec]

/-- Witness for the amended C8, at concrete plans failing the create
(respectively the update) operation. -/
theorem tool_record_persistence_failure_witness :
    executeToolConcurrently [okTool] (fun _ => true) slotOk (some "s") {} =
      (none, [Event.error "Tool execution failed: database error"],
       { nextId := 1, opCount := 1, records := [] }) ∧
    executeToolConcurrently [okTool] (fun n => n == 1) slotOk (some "s") {} =
      (none,
       [Event.tool_call "t" (Json.obj []) "id0" 0 (some 1),
        Event.error "Tool execution failed: database error"],
       { nextId := 2, opCount := 2
         records := [pendingToolCallRecord "s" slotOk (Json.obj []) 1] }) ∧
    runExecutions [okTool] (fun _ => true) [slotOk, slotFail] (some "s") {} =
      ((runExecutions [okTool] (fun _ => true) [slotFail] (some "s")
          { nextId := 1, opCount := 1, records := [] }).1,
       Event.error "Tool execution failed: database error" ::
         (runExecutions [okTool] (fun _ => true) [slotFail] (some "s")
           { nextId := 1, opCount := 1, records := [] }).2.1,
       (runExecutions [okTool] (fun _ => true) [slotFail] (some "s")
         { nextId := 1, opCount := 1, records := [] }).2.2) := by
  refine ⟨?_, ?_, ?_⟩
  · exact tool_record_persistence_failure_aborts_invocation_only.1
      [okTool] (fun _ => true) slotOk "s" {} (Json.obj [])
      (by decide) (by decide) rfl rfl
  · exact tool_record_persistence_failure_aborts_invocation_only.2.1
      [okTool] (fun n => n == 1) slotOk "s" {} (Json.obj []) okTool "r"
      (by decide) (by decide) rfl rfl rfl rfl rfl
  · exact tool_record_persistence_failure_aborts_invocation_only.2.2
      [okTool] (fun _ => true) slotOk [slotFail] "s" {} (Json.obj [])
      (by decide) (by decide) rfl rfl

/-- C9. For every invocation that reaches execution (session present,
arguments parsed, name resolved, create succeeded), the persisted tool-call
record is created with the stable identifier `db.nextId` before the executor
runs: executor failure leaves exactly the pending record (no result
attached), and on success the result is attached to that same record by one
in-place update keyed by that identifier — the store gains exactly one
record, and every pre-existing record is unchanged. -/
theorem tool_record_lifecycle (tools : List Tool) (plan : Nat → Bool)
    (c : ToolCallSlot) (sid : String) (db : Db) (a : Json) (t : Tool)
    (h1 : c.name ≠ "") (h2 : c.arguments ≠ "")
    (hp : jsonParse c.arguments = .ok a)
    (hcreate : plan db.opCount = false)
    (hl : toolMapGet tools c.name = some t)
    (hwf : ∀ rec ∈ db.records, rec.id ≠ db.nextId) :
    (∀ r, t.execute a = .ok r → plan (db.opCount + 1) = false →
      executeToolConcurrently tools plan c (some sid) db =
        (some { toolName := c.name, toolArgs := a, result := r, tool := t
                messageId := some db.nextId },
         [Event.tool_call c.name a c.id c.index (some db.nextId),
          Event.tool_result c.name r c.id c.index (some db.nextId)],
         { nextId := db.nextId + 1, opCount := db.opCount + 2
           records := db.records ++ [resolvedToolCallRecord sid c a r db.nextId] })) ∧
    (∀ msg, t.execute a = .error msg →
      executeToolConcurrently tools plan c (some sid) db =
        (none,
         [Event.tool_call c.name a c.id c.index (some db.nextId),
          Event.error ("Tool execution failed: " ++ msg)],
         { nextId := db.nextId + 1, opCount := db.opCount + 1
           records := db.records ++ [pendingToolCallRecord sid c a db.nextId] })) := by
  constructor
  · intro r he hupd
    rw [executeToolConcurrently_session tools plan c sid db a h1 h2 hp,
      if_neg (by simp [hcreate])]
    unfold executeToolAfterSave
    simp only [hl, he]
    unfold dbUpdate
    simp only [hupd, Bool.false_eq_true, if_false]
    have hmap : (db.records ++ [pendingToolCallRecord sid c a db.nextId]).map
        (fun rec => if rec.id == db.nextId then
          { rec with content := "Tool " ++ c.name ++ " executed"
                     toolResult := some (jsonStringify (.str r)) }
        else rec) =
        db.records ++ [resolvedToolCallRecord sid c a r db.nextId] := by
      rw [List.map_append]
      congr 1
      · apply list_map_id_of
        intro rec hrec
        simp [show (rec.id == db.nextId) = false by simp [hwf rec hrec]]
      · simp [pendingToolCallRecord, resolvedToolCallRecord]
    rw [hmap]
  · intro msg he
    rw [executeToolConcurrently_session tools plan c sid db a h1 h2 hp,
      if_neg (by simp [hcreate])]
    unfold executeToolAfterSave
    simp only [hl, he]

/-- Witness for C9 at a concrete successful invocation (and, for the
crash-trace clause, a concrete failing executor). -/
theorem tool_record_lifecycle_witness :
    executeToolConcurrently [okTool] (fun _ => false) slotOk (some "s") {} =
      (some { toolName := "t", toolArgs := Json.obj [], result := "r", tool := okTool
              messageId := some 1 },
       [Event.tool_call "t" (Json.obj []) "id0" 0 (some 1),
        Event.tool_result "t" "r" "id0" 0 (some 1)],
       { nextId := 2, opCount := 2
         records := [resolvedToolCallRecord "s" slotOk (Json.obj []) "r" 1] }) ∧
    executeToolConcurrently [failingTool] (fun _ => false) slotFail (some "s") {} =
      (none,
       [Event.tool_call "f" (Json.obj []) "id1" 1 (some 1),
        Event.error "Tool execution failed: exec boom"],
       { nextId := 2, opCount := 1
         records := [pendingToolCallRecord "s" slotFail (Json.obj []) 1] }) := by
  constructor
  · exact (tool_record_lifecycle [okTool] (fun _ => false) slotOk "s" {}
      (Json.obj []) okTool (by decide) (by decide) rfl rfl rfl (by simp)).1
      "r" rfl rfl
  · exact (tool_record_lifecycle [failingTool] (fun _ => false) slotFail "s" {}
      (Json.obj []) failingTool (by decide) (by decide) rfl rfl rfl (by simp)).2
      "exec boom" rfl

/-! ## Claim C4: a round whose invocations all fail ends the turn -/

lemma handleToolCallsFinish_allFailed (tools : List Tool) (plan : Nat → Bool)
    (sid : Option String) (slots : List ToolCallSlot) (msgs : List ChatMsg)
    (content : String) (db : Db) (evs : List Event) (db' : Db) (n : Nat)
    (h : handleToolCallsFinish tools plan sid slots msgs content db =
      (evs, db', .allFailed n)) :
    ∃ evs₀, evs = evs₀ ++ [Event.streamEnd] := by
  unfold handleToolCallsFinish at h
  rcases hre : runExecutions tools plan
      (slots.filter (fun s => s.name != "" && s.arguments != "")) sid db with
    ⟨execs, execEvents, db1⟩
  simp only [hre] at h
  by_cases hemp : execs.isEmpty
  · simp only [hemp, if_true, Prod.mk.injEq] at h
    exact ⟨execEvents, h.1.symm⟩
  · simp only [hemp, Bool.false_eq_true, if_false] at h
    cases hg : generateFollowupMessages execs msgs with
    | ok m => simp only [hg, Prod.mk.injEq] at h; exact absurd h.2.2 (by simp)
    | error msg => simp only [hg, Prod.mk.injEq] at h; exact absurd h.2.2 (by simp)

lemma processChunks_allFailed (tools : List Tool) (plan : Nat → Bool)
    (sid : Option String) :
    ∀ (chunks : List (Option Choice)) (slots : List ToolCallSlot)
      (htc : Bool) (msgs : List ChatMsg) (content : String) (db : Db)
      (evs : List Event) (ac : String) (db' : Db) (n : Nat),
      processChunks tools plan sid chunks slots htc msgs content db =
        (evs, ac, db', .allFailed n) →
      ∃ evs₀, evs = evs₀ ++ [Event.streamEnd] := by
  intro chunks
  induction chunks with
  | nil =>
    intro slots htc msgs content db evs ac db' n h
    rw [processChunks] at h
    cases h
  | cons chunk rest ih =>
    intro slots htc msgs content db evs ac db' n h
    cases chunk with
    | none =>
      rw [processChunks] at h
      exact ih _ _ _ _ _ _ _ _ _ h
    | some choice =>
      rw [processChunks] at h
      rcases hslots : (match choice.delta.toolCalls with
        | some ds => (ds.foldl applyToolCallDelta slots, true)
        | none => (slots, htc)) with ⟨slots1, hasTC1⟩
      simp only [hslots] at h
      rcases htext : (match choice.delta.content with
        | some c =>
          if c = "" then (([] : List Event), content)
          else ([Event.text_chunk c], content ++ c)
        | none => (([] : List Event), content)) with ⟨textEvents, allContent1⟩
      simp only [htext] at h
      cases hfin : choice.finishReason with
      | none =>
        simp only [hfin] at h
        rcases hrec : processChunks tools plan sid rest slots1 hasTC1 msgs
            allContent1 db with ⟨evs2, ac2, db2, ex2⟩
        simp only [hrec, Prod.mk.injEq] at h
        obtain ⟨h1, h2, h3, h4⟩ := h
        obtain ⟨evs₀, h0⟩ := ih _ _ _ _ _ _ _ _ _ (hrec.trans (by rw [h4]))
        exact ⟨textEvents ++ evs₀, by rw [← h1, h0, List.append_assoc]⟩
      | some reason =>
        simp only [hfin] at h
        by_cases hcond : (hasTC1 && reason == "tool_calls") = true
        · rw [if_pos hcond] at h
          rcases hh : handleToolCallsFinish tools plan sid slots1 msgs
              allContent1 db with ⟨evsh, dbh, exh⟩
          simp only [hh, Prod.mk.injEq] at h
          obtain ⟨h1, h2, h3, h4⟩ := h
          obtain ⟨evs₀, h0⟩ :=
            handleToolCallsFinish_allFailed tools plan sid slots1 msgs
              allContent1 db evsh dbh n (hh.trans (by rw [h4]))
          exact ⟨textEvents ++ evs₀, by rw [← h1, h0, List.append_assoc]⟩
        · rw [if_neg hcond] at h
          simp only [Prod.mk.injEq] at h
          exact absurd h.2.2.2 (by simp)

/-- C4. For every conversation state in which the current round's stream
processing ends in the all-invocations-failed branch (`allFailed n`, with
`n` eligible calls, at least one), the controller makes no further model
request: the turn's remaining request list is exactly the current round's
request (no `Composing`, no next round), the accumulated text was finalized
inside that branch, and the emitted events end with the `end` event. -/
theorem all_invocations_failed_ends_turn (tools : List Tool)
    (plan : Nat → Bool) (maxRounds : Nat)
    (oracle : Nat → List (Option Choice)) (sid : Option String)
    (modelStr : String) (fuel reqCount currentRound : Nat)
    (msgs : List ChatMsg) (content : String) (db : Db)
    (evs : List Event) (ac : String) (db' : Db) (n : Nat)
    (hround : currentRound ≤ maxRounds)
    (hn : 0 < n)
    (hproc : processChunks tools plan sid (oracle reqCount) [] false msgs
      content db = (evs, ac, db', .allFailed n)) :
    chatLoop tools plan maxRounds oracle sid modelStr (fuel + 1) reqCount
        currentRound msgs content db =
      (evs, [createChatParams tools maxRounds modelStr msgs true currentRound], db') ∧
    ∃ evs₀, evs = evs₀ ++ [Event.streamEnd] := by
  constructor
  · rw [chatLoop]
    rw [if_pos hround]
    simp only [hproc, decide_eq_true hround]
  · exact processChunks_allFailed tools plan sid (oracle reqCount) [] false msgs
      content db evs ac db' n hproc

/-- Witness for C4: one eligible call whose executor fails — the loop makes
exactly that round's request and the events end with `end`. -/
theorem all_invocations_failed_ends_turn_witness :
    chatLoop [failingTool] (fun _ => false) 3 failOracle none "m" 5 0 1 [] "" {} =
      ([Event.tool_call "f" (Json.obj []) "id1" 0 none,
        Event.error "Tool execution failed: exec boom",
        Event.streamEnd],
       [createChatParams [failingTool] 3 "m" [] true 1], {}) ∧
    ∃ evs₀,
      ([Event.tool_call "f" (Json.obj []) "id1" 0 none,
        Event.error "Tool execution failed: exec boom",
        Event.streamEnd] : List Event) = evs₀ ++ [Event.streamEnd] := by
  exact all_invocations_failed_ends_turn [failingTool] (fun _ => false) 3
    failOracle none "m" 4 0 1 [] "" {}
    [Event.tool_call "f" (Json.obj []) "id1" 0 none,
     Event.error "Tool execution failed: exec boom",
     Event.streamEnd] "" {} 1 (by decide) (by decide) rfl

/-- C1, evaluated at the failing input (the model still requests tools when
the round counter reaches the configured maximum 3, every execution
succeeds): the loop guard and the `includeTools` flag recompute the same
condition, so only three requests are ever made — all of them offering
tools — and after round 3's tool results the composed followup is discarded
and `end` is emitted directly. The claimed `Requesting → Done` transition —
one further request with no tools offered whose reply is accepted as final
text — never happens: there is no fourth request at all. -/
theorem round_cap_makes_no_final_request :
    roundCapRun.2.1.length = 3 ∧
    roundCapRun.2.1.map (fun p => p.tools.isSome) = [true, true, true] ∧
    roundCapRun.1.map Event.tag =
      [.call, .result, .call, .result, .call, .result, .fin] := by
  refine ⟨?_, ?_, ?_⟩
  · rfl
  · rfl
  · rfl

end ChatBot
